import Mathlib

/-!
Verification development for the `btc_intraday_bot` repository.

The Python sources (`src/risk.py`, `src/state.py`, `src/bot.py`,
`src/scoring.py`, `src/regime.py`) are shallowly embedded below.  Python
floats are modelled as exact rationals (`ℚ`); `round(x, n)` is modelled by
`roundTo n`, rounding half away from the floor (Python's float `round` uses
banker's rounding over binary floats; the two agree except at exact ties,
and no statement below depends on tie behaviour).  Python `None` is
modelled by `Option`; a dictionary key that may be absent or hold `None` is
modelled by `Option (Option _)` (`none` = key absent, `some none` = key
present holding null).  Exchange calls are modelled by boolean oracles
saying whether the call succeeded; a call that raises inside a `try` block
mutates nothing, which the embedding reflects by leaving state untouched on
a `false` oracle.  A Python `TypeError` that escapes a function is modelled
by a `raised` flag on the function's result, with the state as mutated up
to the raising statement.
-/

/-- Model of Python `round(x, n)` over exact rationals. -/
def roundTo (n : ℕ) (q : ℚ) : ℚ := ((round (q * 10 ^ n) : ℤ) : ℚ) / 10 ^ n

theorem roundTo_mono (n : ℕ) {x y : ℚ} (h : x ≤ y) : roundTo n x ≤ roundTo n y := by
  unfold roundTo
  have hp : (0:ℚ) < 10 ^ n := by positivity
  have hm : round (x * 10 ^ n) ≤ round (y * 10 ^ n) := by
    rw [round_eq, round_eq]
    exact Int.floor_le_floor (by nlinarith)
  exact div_le_div_of_nonneg_right (by exact_mod_cast hm) hp.le

theorem roundTo_le_add (n : ℕ) (x : ℚ) : roundTo n x ≤ x + 1 / (2 * 10 ^ n) := by
  unfold roundTo
  have hp : (0:ℚ) < 10 ^ n := by positivity
  have h := round_le_add_half (x * 10 ^ n)
  have key : (1 / (2 * 10 ^ n) : ℚ) * 10 ^ n = 1 / 2 := by field_simp; ring
  rw [div_le_iff₀ hp]
  nlinarith [h]

theorem sub_le_roundTo (n : ℕ) (x : ℚ) : x - 1 / (2 * 10 ^ n) ≤ roundTo n x := by
  unfold roundTo
  have hp : (0:ℚ) < 10 ^ n := by positivity
  have h := sub_half_lt_round (x * 10 ^ n)
  have key : (1 / (2 * 10 ^ n) : ℚ) * 10 ^ n = 1 / 2 := by field_simp; ring
  rw [le_div_iff₀ hp]
  nlinarith [h]

theorem roundTo_add_int_div (n : ℕ) (x : ℚ) (k : ℤ) :
    roundTo n (x + (k : ℚ) / 10 ^ n) = roundTo n x + (k : ℚ) / 10 ^ n := by
  unfold roundTo
  have hp : (10:ℚ) ^ n ≠ 0 := by positivity
  have hx : (x + (k : ℚ) / 10 ^ n) * 10 ^ n = x * 10 ^ n + (k : ℚ) := by
    field_simp
  rw [hx, round_add_int]
  push_cast
  field_simp

theorem roundTo_int_div (n : ℕ) (k : ℤ) :
    roundTo n ((k : ℚ) / 10 ^ n) = (k : ℚ) / 10 ^ n := by
  have h := roundTo_add_int_div n 0 k
  simp only [zero_add, roundTo, zero_mul, round_zero, Int.cast_zero, zero_div] at h
  exact h

/-- Sides of an order / position, as the strings "Buy" / "Sell" in the source. -/
inductive Side
  | Buy
  | Sell
deriving DecidableEq, Repr

/-! ## src/risk.py -/

/-- `_round_step` from src/risk.py: floor `value` to a multiple of `step`. -/
def _round_step (value step : ℚ) : ℚ :=
  if step ≤ 0 then value else (⌊value / step⌋ : ℚ) * step

/-- `compute_position_size` from src/risk.py. -/
def compute_position_size (equity price risk_pct min_qty qty_step min_order_value : ℚ) : ℚ :=
  if price ≤ 0 ∨ equity ≤ 0 then 0
  else
    let risk_capital := equity * risk_pct
    let raw_qty0 := max (risk_capital / (price * (1 / 100))) min_qty
    let raw_qty := if raw_qty0 * price < min_order_value then min_order_value / price else raw_qty0
    let qty := max (_round_step raw_qty qty_step) min_qty
    roundTo 6 qty

/-- The three levels returned by `compute_initial_sl_tp`. -/
structure SlTp where
  sl : ℚ
  tp1 : ℚ
  tp2 : ℚ
deriving DecidableEq, Repr

/-- `compute_initial_sl_tp` from src/risk.py.  `atr = none` models a missing /
NaN ATR; Python's `if atr and atr > 0` is false for `None`, `0.0` and negative
values, taking the fallback branch. -/
def compute_initial_sl_tp (price : ℚ) (side : Side) (atr : Option ℚ)
    (atr_k_sl tp1_k tp2_k fb_sl_pct fb_tp_pct : ℚ) : SlTp :=
  let fb : SlTp :=
    if side = .Buy then
      ⟨roundTo 2 (price * (1 - fb_sl_pct)), roundTo 2 (price * (1 + fb_tp_pct)),
        roundTo 2 (price * (1 + 2 * fb_tp_pct))⟩
    else
      ⟨roundTo 2 (price * (1 + fb_sl_pct)), roundTo 2 (price * (1 - fb_tp_pct)),
        roundTo 2 (price * (1 - 2 * fb_tp_pct))⟩
  match atr with
  | none => fb
  | some a =>
    if 0 < a then
      if side = .Buy then
        ⟨roundTo 2 (price - atr_k_sl * a), roundTo 2 (price + tp1_k * a),
          roundTo 2 (price + tp2_k * a)⟩
      else
        ⟨roundTo 2 (price + atr_k_sl * a), roundTo 2 (price - tp1_k * a),
          roundTo 2 (price - tp2_k * a)⟩
    else fb

/-! ## src/state.py: the per-symbol slice of `_state_cache`

`get_state` / `set_state` keep one JSON object per symbol whose keys are
`entry_price`, `last_sl`, `took_tp1`, `took_tp2`.  A key may be absent
(`none`), present holding null (`some none`; the exit path in bot.py stores
`None`), or present holding a value.  Every `set_state` immediately flushes
to disk, so this record is the persisted state. -/
structure SymState where
  entry_price : Option (Option ℚ)
  last_sl : Option (Option ℚ)
  took_tp1 : Option Bool
  took_tp2 : Option Bool
deriving DecidableEq, Repr

/-- Configuration keys read by `update_stops_and_partials` (cfg.get with the
shown defaults); `trailingAtr` models `cfg.get("trailing") == "atr"`. -/
structure RiskCfg where
  atr_k_tp1 : ℚ
  atr_k_tp2 : ℚ
  atr_k_be : ℚ
  trailingAtr : Bool
  trailing_k_atr : ℚ
  partial_tp1_pct : ℚ
  partial_tp2_pct : ℚ
deriving DecidableEq, Repr

/-- The defaults hard-coded in `update_stops_and_partials` (and matching
bot.py's config defaults): tp1 = 1·ATR, tp2 = 2·ATR, breakeven at 0.5·ATR,
supertrend trailing, 30% partial closes. -/
def defaultRiskCfg : RiskCfg := ⟨1, 2, 1/2, false, 1, 3/10, 3/10⟩

/-- Result of one `update_stops_and_partials` call.
`raised` records a `TypeError` escaping the function (the state holds every
mutation made before the raising statement).  `stopAttempts` lists the
`set_trading_stop` calls made, `tp1Attempts` / `tp2Attempts` the reduce-only
partial-close orders submitted by each leg, and `hookCalls` the quantities
passed to the `on_partial` hook (invoked only when the order call succeeded). -/
structure UpdResult where
  state : SymState
  raised : Bool
  stopAttempts : List ℚ
  tp1Attempts : List ℚ
  tp2Attempts : List ℚ
  hookCalls : List ℚ
deriving DecidableEq, Repr

/-- The lazy-initialization block at the top of `update_stops_and_partials`
(risk.py lines 129–137): absent `entry_price` / `took_tp1` / `took_tp2` keys
are created (a key present holding null is left alone, since Python's
`"k" not in state` is false for it). -/
def lazyInit (entry_price : ℚ) (st0 : SymState) : SymState :=
  let st1 : SymState :=
    if st0.entry_price = none then { st0 with entry_price := some (some entry_price) } else st0
  let st2 : SymState := if st1.took_tp1 = none then { st1 with took_tp1 := some false } else st1
  if st2.took_tp2 = none then { st2 with took_tp2 := some false } else st2

/-- The breakeven block of `update_stops_and_partials` (risk.py lines
157–159), evaluated when the trigger hit: `desired_sl` becomes
`max(desired_sl, breakeven)` for Buy — which raises `TypeError` when
`desired_sl` is `None` (modelled by the outer `none`) — and
`min(desired_sl, breakeven) if desired_sl is not None else breakeven`
for Sell. -/
def beDesired (side : Side) (last_sl : Option ℚ) (breakeven : ℚ) : Option (Option ℚ) :=
  match side, last_sl with
  | .Buy, some d => some (some (max d breakeven))
  | .Buy, none => none
  | .Sell, some d => some (some (min d breakeven))
  | .Sell, none => some (some breakeven)

/-- The trailing candidate of `update_stops_and_partials` (risk.py lines
161–164): `price ∓ trailing_k_atr·ATR` in ATR mode, else the supertrend
band for the side. -/
def trailCandidate (side : Side) (cfg : RiskCfg) (price a : ℚ)
    (st_lower st_upper : Option ℚ) : Option ℚ :=
  if cfg.trailingAtr then
    some (if side = .Buy then price - cfg.trailing_k_atr * a else price + cfg.trailing_k_atr * a)
  else if side = .Buy then st_lower else st_upper

/-- Merging the trailing candidate into `desired_sl` (risk.py lines
166–170). -/
def mergeTrail (side : Side) (desired1 trail_sl : Option ℚ) : Option ℚ :=
  match trail_sl with
  | none => desired1
  | some t =>
    match desired1 with
    | none => some t
    | some d => some (if side = .Buy then max d t else min d t)

/-- The stop-update block of `update_stops_and_partials` (risk.py lines
172–180): round the desired stop to 2 decimals, move the exchange stop only
when it strictly tightens on the last known value, and persist `last_sl`
only when the `set_trading_stop` call did not raise (`stopOk`).  Returns
the list of attempted stop values and the state after the block. -/
def stopUpdate (side : Side) (stopOk : Bool) (last_sl : Option ℚ) (desired2 : Option ℚ)
    (st3 : SymState) : List ℚ × SymState :=
  match desired2 with
  | none => ([], st3)
  | some d =>
    let new_sl := roundTo 2 d
    let guard : Bool :=
      match last_sl with
      | none => true
      | some ls => if side = .Buy then decide (ls < new_sl) else decide (new_sl < ls)
    if guard then
      ([new_sl], if stopOk then { st3 with last_sl := some (some new_sl) } else st3)
    else ([], st3)

/-- `update_stops_and_partials` from src/risk.py.

Arguments mirror the source: `atr`, `st_lower`, `st_upper` are the floats
pulled from the last feature row (`none` = missing/null), `lot_step` the
exchange lot step.  `stopOk`, `p1Ok`, `p2Ok` are oracles for the three
exchange calls (`set_trading_stop`, and `place_order` inside `_reduce_only`
for each partial leg); a `false` oracle models the call raising, which the
source catches locally.  Control flow mirrors the source line by line:
lazy initialization of `entry_price` / `took_tp1` / `took_tp2` happens
before the ATR guard; `max(desired_sl, breakeven)` on the Buy side raises
`TypeError` when `desired_sl` is `None` (the Sell side guards for it);
`set_state("last_sl", …)` runs inside the `try`, after the exchange call;
each partial leg sets its flag unconditionally after `_reduce_only`. -/
def update_stops_and_partials (side : Side) (entry_price position_qty price : ℚ)
    (atr st_lower st_upper : Option ℚ) (cfg : RiskCfg) (lot_step : ℚ)
    (stopOk p1Ok p2Ok : Bool) (st0 : SymState) : UpdResult :=
  let st3 : SymState := lazyInit entry_price st0
  let last_sl : Option ℚ := st3.last_sl.join
  match atr with
  | none => ⟨st3, false, [], [], [], []⟩
  | some a =>
    if a ≤ 0 then ⟨st3, false, [], [], [], []⟩
    else
      let be_trigger := if side = .Buy then entry_price + cfg.atr_k_be * a
        else entry_price - cfg.atr_k_be * a
      let tp1_price := if side = .Buy then entry_price + cfg.atr_k_tp1 * a
        else entry_price - cfg.atr_k_tp1 * a
      let tp2_price := if side = .Buy then entry_price + cfg.atr_k_tp2 * a
        else entry_price - cfg.atr_k_tp2 * a
      let beHit : Bool := (side = .Buy ∧ be_trigger ≤ price) ∨ (side = .Sell ∧ price ≤ be_trigger)
      -- `desired_sl` after the breakeven block; `none` in the outer option
      -- models the uncaught `TypeError` from `max(None, breakeven)`.
      let beRes : Option (Option ℚ) :=
        if beHit then beDesired side last_sl (roundTo 2 entry_price) else some last_sl
      match beRes with
      | none => ⟨st3, true, [], [], [], []⟩
      | some desired1 =>
        let desired2 : Option ℚ :=
          mergeTrail side desired1 (trailCandidate side cfg price a st_lower st_upper)
        let stopStep : List ℚ × SymState := stopUpdate side stopOk last_sl desired2 st3
        let st4 := stopStep.2
        let took_tp1 := st4.took_tp1.getD false
        let took_tp2 := st4.took_tp2.getD false
        let tp1Hit : Bool := (side = .Buy ∧ tp1_price ≤ price) ∨ (side = .Sell ∧ price ≤ tp1_price)
        let tp2Hit : Bool := (side = .Buy ∧ tp2_price ≤ price) ∨ (side = .Sell ∧ price ≤ tp2_price)
        let q1 := max (_round_step (position_qty * cfg.partial_tp1_pct) lot_step) 0
        let q2 := max (_round_step (position_qty * cfg.partial_tp2_pct) lot_step) 0
        let leg1 : Bool := !took_tp1 && tp1Hit
        let tp1Attempts : List ℚ := if leg1 then (if q1 ≤ 0 then [] else [q1]) else []
        let st5 : SymState := if leg1 then { st4 with took_tp1 := some true } else st4
        let leg2 : Bool := !took_tp2 && tp2Hit
        let tp2Attempts : List ℚ := if leg2 then (if q2 ≤ 0 then [] else [q2]) else []
        let st6 : SymState := if leg2 then { st5 with took_tp2 := some true } else st5
        ⟨st6, false, stopStep.1, tp1Attempts, tp2Attempts,
          (if p1Ok then tp1Attempts else []) ++ (if p2Ok then tp2Attempts else [])⟩

/-- The per-cycle inputs of one lifecycle call (everything
`update_stops_and_partials` reads apart from the side, config, lot step and
the persisted state). -/
structure CycleIn where
  entry_price : ℚ
  qty : ℚ
  price : ℚ
  atr : Option ℚ
  st_lower : Option ℚ
  st_upper : Option ℚ
  stopOk : Bool
  p1Ok : Bool
  p2Ok : Bool
deriving DecidableEq, Repr

/-- The persisted state after one lifecycle call. -/
def stepState (side : Side) (cfg : RiskCfg) (lot_step : ℚ) (c : CycleIn) (st : SymState) :
    SymState :=
  (update_stops_and_partials side c.entry_price c.qty c.price c.atr c.st_lower c.st_upper
    cfg lot_step c.stopOk c.p1Ok c.p2Ok st).state

/-- The persisted state after a sequence of lifecycle cycles for one position
(as bot.py runs them while the position stays open). -/
def runCycles (side : Side) (cfg : RiskCfg) (lot_step : ℚ) (l : List CycleIn)
    (st : SymState) : SymState :=
  l.foldl (fun s c => stepState side cfg lot_step c s) st

/-! ## src/bot.py: `_has_open_position` and the decision loop's cycle skeleton -/

/-- The `size` field of one entry of `get_positions`' result list:
absent (`p.get("size") is None`), unparseable (`float(sz)` raises), or a
number. -/
inductive SizeField
  | absent
  | bad
  | val (q : ℚ)
deriving DecidableEq, Repr

/-- One entry of the exchange's position list (only the `size` field is
inspected by `_has_open_position`). -/
structure PosEntry where
  size : SizeField
deriving DecidableEq, Repr

/-- What one `get_positions` call did: raised an exception, returned a
response with a non-zero `retCode`, or returned `retCode = 0` with a list. -/
inductive QueryOutcome
  | raises
  | retNonZero
  | ok (l : List PosEntry)
deriving DecidableEq, Repr

/-- The loop body of `_has_open_position`: an entry counts as open when its
size is present, parseable and of non-zero absolute value (entries failing
any of these are skipped with `continue`). -/
def entryOpen (p : PosEntry) : Bool :=
  match p.size with
  | .val q => decide (q ≠ 0)
  | _ => false

/-- `_has_open_position` from src/bot.py: an exception is answered
conservatively as `(True, None)`; a non-zero `retCode` as `(False, None)`;
otherwise the first list entry with non-zero size is returned. -/
def _has_open_position (q : QueryOutcome) : Bool × Option PosEntry :=
  match q with
  | .raises => (true, none)
  | .retNonZero => (false, none)
  | .ok l =>
    match l.find? entryOpen with
    | some p => (true, some p)
    | none => (false, none)

/-- Whether a query completed without raising and its response reported no
open position (retCode 0 and no positive-size entry in the list). -/
def okReportsNoPosition (q : QueryOutcome) : Bool :=
  match q with
  | .ok l => (l.find? entryOpen).isNone
  | _ => false

/-- The decisions one iteration of `main_loop` takes (after the
trading-enabled and candle checks).  `exitFired`: the full-exit block ran
(previous cycle had a position, current query says none).  `maintenanceRan`:
the has-position block ran (`update_stops_and_partials` etc.), ending the
cycle.  `entrySubmitted`: the entry path reached `place_market_order`. -/
structure LoopCycleOut where
  hasPos : Bool
  posRec : Option PosEntry
  exitFired : Bool
  maintenanceRan : Bool
  entrySubmitted : Bool
deriving DecidableEq, Repr

/-- One iteration of `main_loop` from src/bot.py, reduced to its control
skeleton.  `prevHasPos` is `_prev_has_pos` from the previous iteration;
`score`/`threshold` drive the entry gate; `cooldownBlocked` models the
entry-cooldown check rejecting (`COOLDOWN_SEC > 0 and LAST_ENTRY_TS` with
time remaining); `availOk` models `avail >= min_val`; `qtyOk` models the
computed quantity passing `qty * price >= min_val and qty > 0`.  The order
of the blocks mirrors the source: full-exit detection, then the
has-position maintenance block (which ends the cycle), then the entry path. -/
def main_loop_cycle (prevHasPos : Bool) (q : QueryOutcome) (score threshold : ℚ)
    (cooldownBlocked availOk qtyOk : Bool) : LoopCycleOut :=
  let hp := _has_open_position q
  let exitFired := prevHasPos && !hp.1
  if hp.1 && hp.2.isSome then
    ⟨hp.1, hp.2, exitFired, true, false⟩
  else if threshold < score then
    if cooldownBlocked then ⟨hp.1, hp.2, exitFired, false, false⟩
    else if !availOk then ⟨hp.1, hp.2, exitFired, false, false⟩
    else if !qtyOk then ⟨hp.1, hp.2, exitFired, false, false⟩
    else ⟨hp.1, hp.2, exitFired, false, true⟩
  else ⟨hp.1, hp.2, exitFired, false, false⟩

/-! ## src/scoring.py -/

/-- The `weights` section of the scoring config. -/
structure Weights where
  TA : ℚ
  BybitData : ℚ
  Volume : ℚ
  Volatility : ℚ
deriving DecidableEq, Repr

/-- The `volume` section of the scoring config. -/
structure VolumeCfg where
  surge_hi : ℚ
  surge_lo : ℚ
  score_hi : ℚ
  score_lo : ℚ
deriving DecidableEq, Repr

/-- The `volatility` section of the scoring config (`atr_ma_window` is used
as the rolling-window length). -/
structure VolatilityCfg where
  atr_ma_window : ℕ
  hot_ratio : ℚ
  cold_ratio : ℚ
  score_hot : ℚ
  score_cold : ℚ
  z_momentum_hi : ℚ
  z_momentum_lo : ℚ
  score_z_hi : ℚ
  score_z_lo : ℚ
deriving DecidableEq, Repr

/-- The `ta` section of the scoring config. -/
structure TaCfg where
  ema_stack_bonus : ℚ
  adx_trend : ℚ
  adx_score : ℚ
  rsi_hot : ℚ
  rsi_cold : ℚ
  rsi_score : ℚ
  vwap_alignment : ℚ
deriving DecidableEq, Repr

/-- The `bybit` section of the scoring config. -/
structure BybitCfg where
  funding_pos : ℚ
  funding_neg : ℚ
  basis_pos : ℚ
  basis_neg : ℚ
  lsr_pos : ℚ
  lsr_neg : ℚ
deriving DecidableEq, Repr

/-- The whole scoring config (`_CFG` in src/scoring.py). -/
structure ScoringCfg where
  weights : Weights
  volume : VolumeCfg
  volatility : VolatilityCfg
  ta : TaCfg
  bybit : BybitCfg
deriving DecidableEq, Repr

/-- `_DEFAULT_CFG` from src/scoring.py (exact decimal values). -/
def _DEFAULT_CFG : ScoringCfg :=
  { weights := ⟨45/100, 25/100, 15/100, 15/100⟩
    volume := ⟨15/10, 7/10, 6/10, -(4/10)⟩
    volatility := ⟨20, 12/10, 8/10, 3/10, -(3/10), 6/10, -(6/10), 2/10, -(2/10)⟩
    ta := ⟨4/10, 25, 2/10, 70, 30, -(1/10), 1/10⟩
    bybit := ⟨5/100, -(5/100), 1/10, -(1/10), 1/10, -(1/10)⟩ }

/-- The last feature row as the scorer reads it.  A `none` field models a
missing key, a `None` value, or — where only comparisons are performed on
it — a float NaN (every comparison against NaN is false in Python, which
the `Option` matches below reproduce); `close` is always a real number for
a non-empty candle frame.  In `_volume_subscore`, `float(x or 0)` maps a
missing/None/zero volume to 0, which `Option.getD 0` mirrors; a NaN there
would propagate arithmetically in Python and is outside this rational
model. -/
structure LastRow where
  close : ℚ
  ema_9 : Option ℚ
  ema_21 : Option ℚ
  ema_50 : Option ℚ
  adx : Option ℚ
  rsi : Option ℚ
  vwap : Option ℚ
  volume : Option ℚ
  vol_ma_20 : Option ℚ
deriving DecidableEq, Repr

/-- The feature frame as the scorer reads it: the ATR column (for the
volatility sub-score's rolling mean) and the last row. -/
structure Frame where
  atrSeries : List (Option ℚ)
  last : LastRow
deriving DecidableEq, Repr

/-- A dynamically-typed Python value fed to `_safe_last_float`:
`None`, a number, a list, or anything `float()` rejects. -/
inductive PyVal
  | noneV
  | numV (q : ℚ)
  | listV (l : List PyVal)
  | badV

/-- `_safe_last_float` from src/scoring.py with its default of 0: a list is
replaced by its last element; `None` returns the default; `float()` failing
(empty list, nested list, unparseable value) is caught and returns the
default. -/
def _safe_last_float : PyVal → ℚ
  | .noneV => 0
  | .numV q => q
  | .badV => 0
  | .listV l =>
    match l.getLast? with
    | none => 0
    | some (.numV q) => q
    | some _ => 0

/-- One entry of the long/short-ratio series.  `dictE v` is a mapping whose
first key among `longShortRatio`/`ratio`/`value` holds `v` (`dictE none`:
none of the keys present); `plainE v` is a non-mapping entry passed to
`float` directly. -/
inductive LsrEntry
  | dictE (v : Option PyVal)
  | plainE (v : PyVal)

/-- The `lsr_val` extraction in `_bybit_data_subscore`: the last entry of
the series yields a float, or `None` when the list is empty, no key
matches, or `float()` raises (the exception is caught and `lsr_val` reset
to `None`). -/
def lsrVal (l : List LsrEntry) : Option ℚ :=
  match l.getLast? with
  | none => none
  | some (.dictE none) => none
  | some (.dictE (some (.numV q))) => some q
  | some (.dictE (some _)) => none
  | some (.plainE (.numV q)) => some q
  | some (.plainE _) => none

/-- One entry of the open-interest series as `detect_regime` normalizes it:
a mapping (`openInterest` key optional), a sequence (`x[1]` is read when the
length exceeds 1), or a value with no `len()` (so `len(x)` raises). -/
inductive OiEntry
  | dictE (openInterest : Option PyVal)
  | seqE (items : List PyVal)
  | plainE

/-- The metrics dict as built in `analyze_once` and consumed by
`score_signal` (`oi` is consumed by `detect_regime`). -/
structure MetricsIn where
  funding : PyVal
  basis : PyVal
  lsr : List LsrEntry

/-- Python's `max(min(s, 1.0), -1.0)` clamp used by three of the four
sub-scores. -/
def pyClamp (s : ℚ) : ℚ := max (min s 1) (-1)

/-- `_ema_stack_score` from src/scoring.py. -/
def _ema_stack_score (cfg : ScoringCfg) (last : LastRow) : ℚ :=
  match last.ema_9, last.ema_21, last.ema_50 with
  | some e9, some e21, some e50 =>
    if e21 < e9 ∧ e50 < e21 then cfg.ta.ema_stack_bonus
    else if e9 < e21 ∧ e21 < e50 then -cfg.ta.ema_stack_bonus
    else 0
  | _, _, _ => 0

/-- `_adx_score` from src/scoring.py. -/
def _adx_score (cfg : ScoringCfg) (last : LastRow) : ℚ :=
  match last.adx with
  | none => 0
  | some a => if cfg.ta.adx_trend ≤ a then cfg.ta.adx_score else 0

/-- `_rsi_score` from src/scoring.py. -/
def _rsi_score (cfg : ScoringCfg) (last : LastRow) : ℚ :=
  match last.rsi with
  | none => 0
  | some r => if cfg.ta.rsi_hot ≤ r ∨ r ≤ cfg.ta.rsi_cold then cfg.ta.rsi_score else 0

/-- `_vwap_alignment_score` from src/scoring.py. -/
def _vwap_alignment_score (cfg : ScoringCfg) (last : LastRow) : ℚ :=
  match last.vwap with
  | none => 0
  | some v => if v ≤ last.close then cfg.ta.vwap_alignment else -cfg.ta.vwap_alignment

/-- `_ta_subscore` from src/scoring.py: sum of the four technical terms,
clamped to [-1, 1]. -/
def _ta_subscore (cfg : ScoringCfg) (last : LastRow) : ℚ :=
  pyClamp (_ema_stack_score cfg last + _adx_score cfg last + _rsi_score cfg last +
    _vwap_alignment_score cfg last)

/-- `_volume_subscore` from src/scoring.py.  `float(last.get(k) or 0)` maps
both a missing/None value and 0.0 to 0.  NOTE (verified below): unlike the
other three sub-scores this one is NOT clamped to [-1, 1]. -/
def _volume_subscore (cfg : ScoringCfg) (last : LastRow) : ℚ :=
  let vol := last.volume.getD 0
  let vma := last.vol_ma_20.getD 0
  if vma ≤ 0 then 0
  else
    let surge := vol / max vma (1 / 1000000000)
    if cfg.volume.surge_hi ≤ surge then cfg.volume.score_hi
    else if surge ≤ cfg.volume.surge_lo then cfg.volume.score_lo
    else if 1 ≤ surge then
      ((surge - 1) / max (cfg.volume.surge_hi - 1) (1 / 1000000000)) * cfg.volume.score_hi
    else
      -(((1 - surge) / max (1 - cfg.volume.surge_lo) (1 / 1000000000)) * |cfg.volume.score_lo|)

/-- The rolling mean `df["atr"].rolling(win, min_periods=1).mean().iloc[-1]`:
the mean of the non-NaN values among the last `win` entries of the ATR
column (NaN when there are none, which the caller's NaN-propagation below
turns into a zero sub-score). -/
def atrRollingMean (win : ℕ) (series : List (Option ℚ)) : Option ℚ :=
  let window := (series.drop (series.length - win)).reduceOption
  if window.length = 0 then none else some (window.sum / window.length)

/-- `_volatility_subscore` from src/scoring.py.  The early return fires when
the ATR column is empty or all-NaN; when the last ATR is NaN every
comparison in the body is false and the clamped sum is 0, which the
`none => 0` branch reproduces.  `float(last.get("ema_21") or close)`
falls back to `close` when `ema_21` is missing, NaN-free zero, or None. -/
def _volatility_subscore (cfg : ScoringCfg) (fr : Frame) : ℚ :=
  if fr.atrSeries.reduceOption.length = 0 then 0
  else
    match fr.atrSeries.getLast?.join with
    | none => 0
    | some atr =>
      if atr ≤ 0 then 0
      else
        let atr_ma := (atrRollingMean cfg.volatility.atr_ma_window fr.atrSeries).getD 0
        let ratio := atr / max atr_ma (1 / 1000000000)
        let s1 : ℚ :=
          if cfg.volatility.hot_ratio ≤ ratio then cfg.volatility.score_hot
          else if ratio ≤ cfg.volatility.cold_ratio then cfg.volatility.score_cold
          else 0
        let ema21 : ℚ :=
          match fr.last.ema_21 with
          | some e => if e = 0 then fr.last.close else e
          | none => fr.last.close
        let z := (fr.last.close - ema21) / max atr (1 / 1000000000)
        let s2 : ℚ :=
          if cfg.volatility.z_momentum_hi ≤ z then cfg.volatility.score_z_hi
          else if z ≤ cfg.volatility.z_momentum_lo then cfg.volatility.score_z_lo
          else 0
        pyClamp (s1 + s2)

/-- `_bybit_data_subscore` from src/scoring.py. -/
def _bybit_data_subscore (cfg : ScoringCfg) (m : MetricsIn) : ℚ :=
  let funding := _safe_last_float m.funding
  let sF : ℚ := if 0 < funding then cfg.bybit.funding_pos
    else if funding < 0 then cfg.bybit.funding_neg else 0
  let basis := _safe_last_float m.basis
  let sB : ℚ := if 0 < basis then cfg.bybit.basis_pos
    else if basis < 0 then cfg.bybit.basis_neg else 0
  let sL : ℚ :=
    match lsrVal m.lsr with
    | none => 0
    | some v => if 1 < v then cfg.bybit.lsr_pos else if v < 1 then cfg.bybit.lsr_neg else 0
  pyClamp (sF + sB + sL)

/-- The four-key breakdown returned by `score_signal` (values rounded to 3
decimals). -/
structure Breakdown where
  TA : ℚ
  BybitData : ℚ
  Volume : ℚ
  Volatility : ℚ
deriving DecidableEq, Repr

/-- `score_signal` from src/scoring.py: the four sub-scores, the weighted
total rounded to 2 decimals, and the breakdown rounded to 3 decimals. -/
def score_signal (cfg : ScoringCfg) (fr : Frame) (m : MetricsIn) : ℚ × Breakdown :=
  let ta := _ta_subscore cfg fr.last
  let volm := _volume_subscore cfg fr.last
  let vola := _volatility_subscore cfg fr
  let byb := _bybit_data_subscore cfg m
  let total := ta * cfg.weights.TA + byb * cfg.weights.BybitData +
    volm * cfg.weights.Volume + vola * cfg.weights.Volatility
  (roundTo 2 total, ⟨roundTo 3 ta, roundTo 3 byb, roundTo 3 volm, roundTo 3 vola⟩)

/-! ## src/regime.py -/

/-- The fields of the last feature row read by `detect_regime` (`none`
models NaN / missing; NaN comparisons are false and `np.isnan(NaN)` is
true, which the `Option` matches reproduce). -/
structure RegimeRow where
  adx : Option ℚ
  ema_9 : Option ℚ
  ema_21 : Option ℚ
  ema_50 : Option ℚ
deriving DecidableEq, Repr

/-- The `try` body normalizing the open-interest window in `detect_regime`:
each mapping entry appends `float(x["openInterest"])` when the key is
present and its value is not None; a sequence entry appends `float(x[1])`
when its length exceeds 1 and that element is not None (None values are
skipped by the `if v is not None` check); `float` of an unparseable value
or of a nested list, and `len()` of a plain value, raise — `.error` models
the exception aborting the whole loop. -/
def oiNormalize : List OiEntry → Except Unit (List ℚ)
  | [] => .ok []
  | e :: rest =>
    let step : Except Unit (Option ℚ) :=
      match e with
      | .dictE none => .ok none
      | .dictE (some (.numV q)) => .ok (some q)
      | .dictE (some .noneV) => .ok none
      | .dictE (some _) => .error ()
      | .seqE items =>
        match items with
        | _ :: .numV q :: _ => .ok (some q)
        | _ :: .noneV :: _ => .ok none
        | _ :: _ :: _ => .error ()
        | _ => .ok none
      | .plainE => .error ()
    match step with
    | .error _ => .error ()
    | .ok none => oiNormalize rest
    | .ok (some q) => (oiNormalize rest).map (fun l => q :: l)

/-- The `oi_rising` computation in `detect_regime`: normalize the last 10
entries; rising iff at least two values were collected and the last exceeds
the mean of the preceding ones.  Any exception is swallowed, leaving
`oi_rising = False`. -/
def oiRising (oi : List OiEntry) : Bool :=
  match oiNormalize (oi.drop (oi.length - 10)) with
  | .error _ => false
  | .ok vals =>
    match vals.getLast? with
    | none => false
    | some lastV =>
      decide (2 ≤ vals.length) &&
        decide (vals.dropLast.sum / (vals.dropLast.length : ℚ) < lastV)

/-- `detect_regime` from src/regime.py.  `rows` is the feature frame (only
emptiness and the last row matter), `basis` the raw basis metric (a float
or `None`), `oi` the open-interest series. -/
def detect_regime (rows : List RegimeRow) (basis : Option ℚ) (oi : List OiEntry) : String :=
  match rows.getLast? with
  | none => "neutral"
  | some last =>
    let trend_stack : Bool :=
      match last.ema_9, last.ema_21, last.ema_50 with
      | some e9, some e21, some e50 => decide (e21 < e9) && decide (e50 < e21)
      | _, _, _ => false
    let strong_adx : Bool :=
      match last.adx with
      | some a => decide (25 < a)
      | none => false
    let basis_pos : Bool :=
      match basis with
      | some b => decide (0 < b)
      | none => false
    if strong_adx && trend_stack && (basis_pos || oiRising oi) then "trend"
    else if (match last.adx with | some a => decide (a < 18) | none => false) &&
        (match basis with | none => true | some b => decide (|b| < 1 / 1000000)) then
      "mean-reversion"
    else "neutral"

/-! ## Claim C3: position sizing bounds -/

/-- C3 (counterexample): with the default parameters, at equity = 1,
price = 3000, riskPct = 0.01 the returned quantity is 0.001 and its
notional 0.001 × 3000 = 3 falls below minOrderValue = 5: flooring to the
quantity step after the minimum-notional bump can push the notional back
under the minimum.  This refutes the claim's `qty × price ≥ minOrderValue`
for all equity > 0, price > 0. -/
theorem C3_counterexample :
    compute_position_size 1 3000 (1/100) (1/1000) (1/1000) 5 = 1/1000 ∧
    compute_position_size 1 3000 (1/100) (1/1000) (1/1000) 5 * 3000 < 5 := by
  have h : compute_position_size 1 3000 (1/100) (1/1000) (1/1000) 5 = 1/1000 := by
    simp only [compute_position_size, _round_step, roundTo]
    norm_num [max_def, round_eq]
  exact ⟨h, by rw [h]; norm_num⟩

/-- C3 (amended): for every equity > 0, price > 0 and riskPct, with the
default parameters minQty = qtyStep = 0.001 and minOrderValue = 5, the
returned quantity is at least minQty, is an exact integer multiple of
qtyStep, and its notional exceeds minOrderValue − qtyStep × price (the
step-flooring can lose at most one step's worth of notional; the claimed
`qty × price ≥ minOrderValue` itself fails, see `C3_counterexample`). -/
theorem C3_amended (equity price risk_pct : ℚ) (heq : 0 < equity) (hpr : 0 < price) :
    (1/1000 : ℚ) ≤ compute_position_size equity price risk_pct (1/1000) (1/1000) 5 ∧
    (∃ n : ℤ, compute_position_size equity price risk_pct (1/1000) (1/1000) 5 = (n : ℚ) / 1000) ∧
    5 - price / 1000 < compute_position_size equity price risk_pct (1/1000) (1/1000) 5 * price := by
  have hcond : ¬ (price ≤ 0 ∨ equity ≤ 0) := by push_neg; exact ⟨hpr, heq⟩
  simp only [compute_position_size, if_neg hcond]
  set rq0 : ℚ := max (equity * risk_pct / (price * (1 / 100))) (1/1000) with hrq0
  set raw : ℚ := if rq0 * price < 5 then 5 / price else rq0 with hraw
  have hraw_notional : 5 ≤ raw * price := by
    rw [hraw]
    split_ifs with h
    · rw [div_mul_cancel₀ _ hpr.ne.symm]
    · linarith [not_lt.mp h]
  have hdiv : raw / (1/1000 : ℚ) = raw * 1000 := by ring
  have hstep : _round_step raw (1/1000) = (⌊raw * 1000⌋ : ℚ) / 1000 := by
    rw [_round_step, if_neg (by norm_num), hdiv]
    ring
  have hqty : max (_round_step raw (1/1000)) (1/1000 : ℚ) = ((max ⌊raw * 1000⌋ 1 : ℤ) : ℚ) / 1000 := by
    rw [hstep]
    have h1 : (1/1000 : ℚ) = ((1 : ℤ) : ℚ) / 1000 := by norm_num
    rw [h1, max_div_div_right (by norm_num : (0:ℚ) ≤ 1000)]
    push_cast
    ring_nf
  set m : ℤ := max ⌊raw * 1000⌋ 1 with hm
  have hround : roundTo 6 (max (_round_step raw (1/1000)) (1/1000 : ℚ)) = (m : ℚ) / 1000 := by
    rw [hqty]
    have : ((m : ℚ)) / 1000 = ((m * 1000 : ℤ) : ℚ) / 10 ^ 6 := by push_cast; ring
    rw [this, roundTo_int_div]
  rw [hround]
  have hm1 : 1 ≤ m := le_max_right _ _
  have hm1q : (1 : ℚ) ≤ (m : ℚ) := by exact_mod_cast hm1
  refine ⟨by linarith [hm1q], ⟨m, rfl⟩, ?_⟩
  have hfloor : raw * 1000 - 1 < (⌊raw * 1000⌋ : ℚ) := Int.sub_one_lt_floor _
  have hmf : (⌊raw * 1000⌋ : ℚ) ≤ (m : ℚ) := by exact_mod_cast le_max_left _ _
  have hq : raw - 1/1000 < (m : ℚ) / 1000 := by linarith
  have := mul_lt_mul_of_pos_right hq hpr
  nlinarith [hraw_notional]

/-- C3 (witness for the amended theorem), at the spec's own sizing scenario
equity = 1000, price = 50000, riskPct = 0.01. -/
theorem C3_amended_witness :
    (1/1000 : ℚ) ≤ compute_position_size 1000 50000 (1/100) (1/1000) (1/1000) 5 ∧
    (∃ n : ℤ, compute_position_size 1000 50000 (1/100) (1/1000) (1/1000) 5 = (n : ℚ) / 1000) ∧
    5 - 50000 / 1000 < compute_position_size 1000 50000 (1/100) (1/1000) (1/1000) 5 * 50000 :=
  C3_amended 1000 50000 (1/100) (by norm_num) (by norm_num)

/-! ## Claim C6: initial stop/target placement -/

theorem roundTo2_add_shift (x : ℚ) : roundTo 2 (x + 1/100) = roundTo 2 x + 1/100 := by
  have h := roundTo_add_int_div 2 x 1
  norm_num at h
  exact h

theorem roundTo2_sub_shift (x : ℚ) : roundTo 2 (x - 1/100) = roundTo 2 x - 1/100 := by
  have h := roundTo_add_int_div 2 x (-1)
  norm_num at h
  rw [show x - 1/100 = x + (-(1/100)) by ring]
  rw [show roundTo 2 x - 1/100 = roundTo 2 x + (-(1/100)) by ring]
  exact_mod_cast h

theorem compute_initial_sl_tp_buy_atr (price a k1 k2 k3 f1 f2 : ℚ) (h : 0 < a) :
    compute_initial_sl_tp price .Buy (some a) k1 k2 k3 f1 f2 =
      ⟨roundTo 2 (price - k1 * a), roundTo 2 (price + k2 * a), roundTo 2 (price + k3 * a)⟩ := by
  simp [compute_initial_sl_tp, h]

theorem compute_initial_sl_tp_sell_atr (price a k1 k2 k3 f1 f2 : ℚ) (h : 0 < a) :
    compute_initial_sl_tp price .Sell (some a) k1 k2 k3 f1 f2 =
      ⟨roundTo 2 (price + k1 * a), roundTo 2 (price - k2 * a), roundTo 2 (price - k3 * a)⟩ := by
  simp [compute_initial_sl_tp, h]

/-- C6 (counterexample): with the default multipliers (slK = 1, tp1K = 1,
tp2K = 2) at price = 100, ATR = 0.001, side = Buy, the returned values are
sl = tp1 = tp2 = 100 = price: the 2-decimal rounding collapses the strict
ordering `sl < price < tp1 < tp2` claimed for every ATR > 0. -/
theorem C6_counterexample :
    (compute_initial_sl_tp 100 .Buy (some (1/1000)) 1 1 2 (8/1000) (12/1000)).sl = 100 ∧
    (compute_initial_sl_tp 100 .Buy (some (1/1000)) 1 1 2 (8/1000) (12/1000)).tp1 = 100 := by
  rw [compute_initial_sl_tp_buy_atr _ _ _ _ _ _ _ (by norm_num)]
  constructor <;> (simp only [roundTo, round_eq]; norm_num)

/-- C6 (amended): for every price > 0 and every ATR ≥ 0.01 (one price
quantum, so that the 2-decimal rounding cannot collapse the levels), with
the repository's default multipliers slK = 1, tp1K = 1, tp2K = 2,
`compute_initial_sl_tp` places the stop on the loss side of entry and both
targets on the profit side with tp1 strictly between entry and tp2:
long `sl < price < tp1 < tp2`, short `tp2 < tp1 < price < sl`.  For
0 < ATR < 0.01 the rounding can make the returned levels coincide
(`C6_counterexample`); the unrounded levels are strictly ordered for every
ATR > 0. -/
theorem C6_amended (price a fb_sl fb_tp : ℚ) (_hp : 0 < price) (ha : 1/100 ≤ a) :
    ((compute_initial_sl_tp price .Buy (some a) 1 1 2 fb_sl fb_tp).sl < price ∧
      price < (compute_initial_sl_tp price .Buy (some a) 1 1 2 fb_sl fb_tp).tp1 ∧
      (compute_initial_sl_tp price .Buy (some a) 1 1 2 fb_sl fb_tp).tp1 <
        (compute_initial_sl_tp price .Buy (some a) 1 1 2 fb_sl fb_tp).tp2) ∧
    ((compute_initial_sl_tp price .Sell (some a) 1 1 2 fb_sl fb_tp).tp2 <
        (compute_initial_sl_tp price .Sell (some a) 1 1 2 fb_sl fb_tp).tp1 ∧
      (compute_initial_sl_tp price .Sell (some a) 1 1 2 fb_sl fb_tp).tp1 < price ∧
      price < (compute_initial_sl_tp price .Sell (some a) 1 1 2 fb_sl fb_tp).sl) := by
  have ha0 : 0 < a := lt_of_lt_of_le (by norm_num) ha
  rw [compute_initial_sl_tp_buy_atr _ _ _ _ _ _ _ ha0,
    compute_initial_sl_tp_sell_atr _ _ _ _ _ _ _ ha0]
  have hub : roundTo 2 price ≤ price + 1/200 := by
    have h := roundTo_le_add 2 price
    norm_num at h
    linarith
  have hlb : price - 1/200 ≤ roundTo 2 price := by
    have h := sub_le_roundTo 2 price
    norm_num at h
    linarith
  have hsl : roundTo 2 (price - 1 * a) ≤ roundTo 2 price - 1/100 := by
    have := roundTo_mono 2 (show price - 1 * a ≤ price - 1/100 by linarith)
    rw [roundTo2_sub_shift] at this
    exact this
  have htp1 : roundTo 2 price + 1/100 ≤ roundTo 2 (price + 1 * a) := by
    have := roundTo_mono 2 (show price + 1/100 ≤ price + 1 * a by linarith)
    rw [roundTo2_add_shift] at this
    exact this
  have htp2 : roundTo 2 (price + 1 * a) + 1/100 ≤ roundTo 2 (price + 2 * a) := by
    have := roundTo_mono 2 (show (price + 1 * a) + 1/100 ≤ price + 2 * a by linarith)
    rw [roundTo2_add_shift] at this
    exact this
  have hsl2 : roundTo 2 price + 1/100 ≤ roundTo 2 (price + 1 * a) := htp1
  have htp1s : roundTo 2 (price - 1 * a) ≤ roundTo 2 price - 1/100 := hsl
  have htp2s : roundTo 2 (price - 2 * a) + 1/100 ≤ roundTo 2 (price - 1 * a) := by
    have := roundTo_mono 2 (show (price - 2 * a) + 1/100 ≤ price - 1 * a by linarith)
    rw [roundTo2_add_shift] at this
    exact this
  exact ⟨⟨by linarith, by linarith, by linarith⟩, ⟨by linarith, by linarith, by linarith⟩⟩

/-- C6 (witness for the amended theorem), at price = 100, ATR = 2. -/
theorem C6_amended_witness :
    ((compute_initial_sl_tp 100 .Buy (some 2) 1 1 2 (8/1000) (12/1000)).sl < 100 ∧
      (100:ℚ) < (compute_initial_sl_tp 100 .Buy (some 2) 1 1 2 (8/1000) (12/1000)).tp1 ∧
      (compute_initial_sl_tp 100 .Buy (some 2) 1 1 2 (8/1000) (12/1000)).tp1 <
        (compute_initial_sl_tp 100 .Buy (some 2) 1 1 2 (8/1000) (12/1000)).tp2) ∧
    ((compute_initial_sl_tp 100 .Sell (some 2) 1 1 2 (8/1000) (12/1000)).tp2 <
        (compute_initial_sl_tp 100 .Sell (some 2) 1 1 2 (8/1000) (12/1000)).tp1 ∧
      (compute_initial_sl_tp 100 .Sell (some 2) 1 1 2 (8/1000) (12/1000)).tp1 < 100 ∧
      (100:ℚ) < (compute_initial_sl_tp 100 .Sell (some 2) 1 1 2 (8/1000) (12/1000)).sl) :=
  C6_amended 100 2 (8/1000) (12/1000) (by norm_num) (by norm_num)

/-! ## Claim C9: the ATR guard is a no-op — except for the lazy init -/

theorem lazyInit_fields (e : ℚ) (st : SymState) :
    lazyInit e st =
      ⟨if st.entry_price = none then some (some e) else st.entry_price, st.last_sl,
        if st.took_tp1 = none then some false else st.took_tp1,
        if st.took_tp2 = none then some false else st.took_tp2⟩ := by
  unfold lazyInit
  split_ifs <;> simp_all

theorem lazyInit_keyed (e : ℚ) (st : SymState) (h1 : st.entry_price ≠ none)
    (h2 : st.took_tp1 ≠ none) (h3 : st.took_tp2 ≠ none) : lazyInit e st = st := by
  rw [lazyInit_fields, if_neg h1, if_neg h2, if_neg h3]

theorem lazyInit_last_sl (e : ℚ) (st : SymState) : (lazyInit e st).last_sl = st.last_sl := by
  rw [lazyInit_fields]

/-- C9 (counterexample): a cycle whose ATR is missing is NOT a no-op on the
persisted per-symbol state when the symbol's keys have never been created:
the lazy initialization at the top of `update_stops_and_partials` writes
`entry_price`, `took_tp1` and `took_tp2` (each write flushed to disk by
`set_state`) before the ATR guard returns. -/
theorem C9_counterexample :
    (update_stops_and_partials .Buy 100 1 100 none none none defaultRiskCfg (1/1000)
        true true true ⟨none, none, none, none⟩).state ≠ ⟨none, none, none, none⟩ ∧
    (update_stops_and_partials .Buy 100 1 100 none none none defaultRiskCfg (1/1000)
        true true true ⟨none, none, none, none⟩).state =
      ⟨some (some 100), none, some false, some false⟩ := by
  have h : (update_stops_and_partials .Buy 100 1 100 none none none defaultRiskCfg (1/1000)
      true true true ⟨none, none, none, none⟩).state =
      ⟨some (some 100), none, some false, some false⟩ := by
    simp [update_stops_and_partials, lazyInit]
  exact ⟨by rw [h]; simp, h⟩

/-- C9 (amended): for every cycle in which the latest row's ATR is missing
(`none`) or not positive, `update_stops_and_partials` submits no order
(stop or reduce-only), raises nothing, and leaves the persisted state
unchanged EXCEPT for the lazy initialization of absent keys
(`entry_price`, `took_tp1`, `took_tp2`), which runs before the ATR guard;
in particular when all three keys already exist — as they do after any
entry or full exit — the state is exactly unchanged. -/
theorem C9_amended (side : Side) (entry qty price : ℚ) (atr stL stU : Option ℚ)
    (cfg : RiskCfg) (lot : ℚ) (stopOk p1 p2 : Bool) (st0 : SymState)
    (hatr : atr = none ∨ ∃ a, atr = some a ∧ a ≤ 0) :
    (update_stops_and_partials side entry qty price atr stL stU cfg lot stopOk p1 p2
        st0).stopAttempts = [] ∧
    (update_stops_and_partials side entry qty price atr stL stU cfg lot stopOk p1 p2
        st0).tp1Attempts = [] ∧
    (update_stops_and_partials side entry qty price atr stL stU cfg lot stopOk p1 p2
        st0).tp2Attempts = [] ∧
    (update_stops_and_partials side entry qty price atr stL stU cfg lot stopOk p1 p2
        st0).hookCalls = [] ∧
    (update_stops_and_partials side entry qty price atr stL stU cfg lot stopOk p1 p2
        st0).raised = false ∧
    (update_stops_and_partials side entry qty price atr stL stU cfg lot stopOk p1 p2
        st0).state = lazyInit entry st0 ∧
    (st0.entry_price ≠ none → st0.took_tp1 ≠ none → st0.took_tp2 ≠ none →
      (update_stops_and_partials side entry qty price atr stL stU cfg lot stopOk p1 p2
        st0).state = st0) := by
  have hkey : ∀ h1 : st0.entry_price ≠ none, ∀ h2 : st0.took_tp1 ≠ none,
      ∀ h3 : st0.took_tp2 ≠ none, lazyInit entry st0 = st0 := fun h1 h2 h3 =>
    lazyInit_keyed entry st0 h1 h2 h3
  rcases hatr with h | ⟨a, ha, hle⟩
  · subst h
    refine ⟨rfl, rfl, rfl, rfl, rfl, rfl, fun h1 h2 h3 => ?_⟩
    show lazyInit entry st0 = st0
    exact hkey h1 h2 h3
  · subst ha
    have hmain : update_stops_and_partials side entry qty price (some a) stL stU cfg lot
        stopOk p1 p2 st0 = ⟨lazyInit entry st0, false, [], [], [], []⟩ := by
      simp only [update_stops_and_partials]
      rw [if_pos hle]
    rw [hmain]
    exact ⟨rfl, rfl, rfl, rfl, rfl, rfl, fun h1 h2 h3 => hkey h1 h2 h3⟩

/-- C9 (witness for the amended theorem): ATR missing, fully-keyed state. -/
theorem C9_amended_witness :
    (update_stops_and_partials .Buy 100 1 100 none none none defaultRiskCfg (1/1000)
        true true true ⟨some (some 100), some none, some false, some false⟩).stopAttempts = [] ∧
    (update_stops_and_partials .Buy 100 1 100 none none none defaultRiskCfg (1/1000)
        true true true ⟨some (some 100), some none, some false, some false⟩).tp1Attempts = [] ∧
    (update_stops_and_partials .Buy 100 1 100 none none none defaultRiskCfg (1/1000)
        true true true ⟨some (some 100), some none, some false, some false⟩).tp2Attempts = [] ∧
    (update_stops_and_partials .Buy 100 1 100 none none none defaultRiskCfg (1/1000)
        true true true ⟨some (some 100), some none, some false, some false⟩).hookCalls = [] ∧
    (update_stops_and_partials .Buy 100 1 100 none none none defaultRiskCfg (1/1000)
        true true true ⟨some (some 100), some none, some false, some false⟩).raised = false ∧
    (update_stops_and_partials .Buy 100 1 100 none none none defaultRiskCfg (1/1000)
        true true true ⟨some (some 100), some none, some false, some false⟩).state =
      lazyInit 100 ⟨some (some 100), some none, some false, some false⟩ ∧
    ((⟨some (some 100), some none, some false, some false⟩ : SymState).entry_price ≠ none →
      (⟨some (some 100), some none, some false, some false⟩ : SymState).took_tp1 ≠ none →
      (⟨some (some 100), some none, some false, some false⟩ : SymState).took_tp2 ≠ none →
      (update_stops_and_partials .Buy 100 1 100 none none none defaultRiskCfg (1/1000)
        true true true ⟨some (some 100), some none, some false, some false⟩).state =
        ⟨some (some 100), some none, some false, some false⟩) :=
  C9_amended .Buy 100 1 100 none none none defaultRiskCfg (1/1000) true true true
    ⟨some (some 100), some none, some false, some false⟩ (Or.inl rfl)

/-! ## Claim C4: breakeven promotion — and the Buy-side `max(None, …)` TypeError -/

/-- C4 (code bug, evaluated): long position, entry = 100, ATR = 2,
beMultiplier = 0.5, price = 101 (exactly the spec's breakeven scenario).
With no persisted last-stop value (`last_sl` holding null, as the full-exit
path leaves it), the Buy branch evaluates `max(None, breakeven)` and raises
`TypeError` — the lifecycle step aborts with no stop set, contradicting the
claim that the desired stop is promoted to at least entry whatever
last-stop value (including none) is persisted.  With a persisted last-stop
of 99 the promotion works as claimed: the stop is updated to 100 ≥ entry
even though no trailing candidate exists. -/
theorem C4_breakeven_raises :
    (update_stops_and_partials .Buy 100 1 101 (some 2) none none defaultRiskCfg (1/1000)
        true true true ⟨some (some 100), some none, some false, some false⟩).raised = true ∧
    (update_stops_and_partials .Buy 100 1 101 (some 2) none none defaultRiskCfg (1/1000)
        true true true ⟨some (some 100), some none, some false, some false⟩).stopAttempts = [] ∧
    (update_stops_and_partials .Buy 100 1 101 (some 2) none none defaultRiskCfg (1/1000)
        true true true ⟨some (some 100), some (some 99), some false, some false⟩).stopAttempts
      = [100] ∧
    (update_stops_and_partials .Buy 100 1 101 (some 2) none none defaultRiskCfg (1/1000)
        true true true ⟨some (some 100), some (some 99), some false, some false⟩).state.last_sl
      = some (some 100) := by
  refine ⟨?_, ?_, ?_, ?_⟩ <;>
    (simp [update_stops_and_partials, lazyInit, beDesired, trailCandidate, mergeTrail,
      stopUpdate, defaultRiskCfg, roundTo, round_eq]; norm_num)

/-! ## Claim C1: failed partial-close orders still latch the flags -/

/-- C1 (counterexample): a cycle in which the reduce-only partial-close
order for TP1 fails (`p1Ok = false`: `place_order` raises, the exception is
caught inside `_reduce_only`, the `on_partial` hook is not invoked) still
flips the persisted `took_tp1` flag from False to True, because
`set_state(symbol, "took_tp1", True)` runs unconditionally after
`_reduce_only` returns.  The same trigger therefore does NOT retry on the
next cycle, contrary to the claim.  (Long, entry = 100, ATR = 2,
price = 103 ≥ tp1 = 102; the order for 0.3 of the position was attempted
and failed.) -/
theorem C1_counterexample :
    (update_stops_and_partials .Buy 100 1 103 (some 2) none none defaultRiskCfg (1/1000)
        true false true ⟨some (some 100), some (some 99), some false, some false⟩).tp1Attempts
      = [3/10] ∧
    (update_stops_and_partials .Buy 100 1 103 (some 2) none none defaultRiskCfg (1/1000)
        true false true ⟨some (some 100), some (some 99), some false, some false⟩).hookCalls
      = [] ∧
    (update_stops_and_partials .Buy 100 1 103 (some 2) none none defaultRiskCfg (1/1000)
        true false true ⟨some (some 100), some (some 99), some false, some false⟩).state.took_tp1
      = some true ∧
    (⟨some (some 100), some (some 99), some false, some false⟩ : SymState).took_tp1
      = some false := by
  refine ⟨?_, ?_, ?_, rfl⟩ <;>
    (simp [update_stops_and_partials, lazyInit, beDesired, trailCandidate, mergeTrail,
      stopUpdate, _round_step, defaultRiskCfg, roundTo, round_eq]; norm_num)

/-- C1 (amended): the persisted per-symbol state is entirely independent of
whether the reduce-only partial-close orders succeed or fail (so a failed
partial close leaves `last_sl` exactly as the stop-update leg left it — but
it also latches the `took_tp1` / `took_tp2` flag exactly as a successful
one does, so a failed partial close is never retried); and a failed
stop-update (`set_trading_stop` raising) leaves the persisted last-stop
value unchanged, so the stop update alone does retry on the next cycle. -/
theorem C1_amended (side : Side) (entry qty price : ℚ) (atr stL stU : Option ℚ)
    (cfg : RiskCfg) (lot : ℚ) (stopOk p1 p2 : Bool) (st0 : SymState) :
    (update_stops_and_partials side entry qty price atr stL stU cfg lot stopOk p1 p2
        st0).state =
      (update_stops_and_partials side entry qty price atr stL stU cfg lot stopOk true true
        st0).state ∧
    (update_stops_and_partials side entry qty price atr stL stU cfg lot false p1 p2
        st0).state.last_sl = st0.last_sl := by
  constructor
  · cases atr with
    | none => rfl
    | some a =>
      by_cases hle : a ≤ 0
      · simp only [update_stops_and_partials, if_pos hle]
      · simp only [update_stops_and_partials, if_neg hle]
        split <;> rfl
  · cases atr with
    | none => exact lazyInit_last_sl entry st0
    | some a =>
      have hstop : ∀ lsl d2, (stopUpdate side false lsl d2 (lazyInit entry st0)).2.last_sl
          = st0.last_sl := by
        intro lsl d2
        cases d2 with
        | none => exact lazyInit_last_sl entry st0
        | some d =>
          simp only [stopUpdate]
          split_ifs <;> simp_all [lazyInit_last_sl]
      by_cases hle : a ≤ 0
      · simp only [update_stops_and_partials, if_pos hle]
        exact lazyInit_last_sl entry st0
      · simp only [update_stops_and_partials, if_neg hle]
        split
        · exact lazyInit_last_sl entry st0
        · split_ifs <;> simp [hstop]

/-! ## Claim C5: the persisted stop is a monotone ratchet -/

theorem stopUpdate_last_sl_spec (side : Side) (ok : Bool) (v : ℚ) (d2 : Option ℚ)
    (st3 : SymState) (h3 : st3.last_sl = some (some v)) :
    (stopUpdate side ok (some v) d2 st3).2.last_sl = some (some v) ∨
      (∃ d, (stopUpdate side ok (some v) d2 st3).2.last_sl = some (some (roundTo 2 d)) ∧
        (side = .Buy → v < roundTo 2 d) ∧ (side = .Sell → roundTo 2 d < v)) := by
  cases d2 with
  | none => exact Or.inl h3
  | some d =>
    simp only [stopUpdate]
    cases side with
    | Buy =>
      by_cases hg : v < roundTo 2 d
      · cases ok with
        | true =>
          refine Or.inr ⟨d, ?_, fun _ => hg, fun h => Side.noConfusion h⟩
          simp [hg]
        | false =>
          refine Or.inl ?_
          simp [hg, h3]
      · refine Or.inl ?_
        simp [hg, h3]
    | Sell =>
      by_cases hg : roundTo 2 d < v
      · cases ok with
        | true =>
          refine Or.inr ⟨d, ?_, fun h => Side.noConfusion h, fun _ => hg⟩
          simp [hg]
        | false =>
          refine Or.inl ?_
          simp [hg, h3]
      · refine Or.inl ?_
        simp [hg, h3]

theorem upd_last_sl_spec (side : Side) (cfg : RiskCfg) (lot : ℚ) (c : CycleIn) (st0 : SymState)
    (v : ℚ) (hv : st0.last_sl = some (some v)) :
    (stepState side cfg lot c st0).last_sl = some (some v) ∨
      (∃ d, (stepState side cfg lot c st0).last_sl = some (some (roundTo 2 d)) ∧
        (side = .Buy → v < roundTo 2 d) ∧ (side = .Sell → roundTo 2 d < v)) := by
  have h3 : (lazyInit c.entry_price st0).last_sl = some (some v) := by
    rw [lazyInit_last_sl]; exact hv
  unfold stepState
  cases hatr : c.atr with
  | none =>
    left
    simp only [update_stops_and_partials, hatr]
    exact h3
  | some a =>
    by_cases hle : a ≤ 0
    · left
      simp only [update_stops_and_partials, hatr, if_pos hle]
      exact h3
    · simp only [update_stops_and_partials, hatr, if_neg hle, h3, Option.join,
        Option.some_bind, id_eq]
      split
      · rename_i hbe
        cases side <;> split_ifs at hbe <;> simp [beDesired] at hbe
      · rename_i d1 hbe
        have hS := stopUpdate_last_sl_spec side c.stopOk v
          (mergeTrail side d1 (trailCandidate side cfg c.price a c.st_lower c.st_upper))
          (lazyInit c.entry_price st0) h3
        split_ifs <;> simp only <;> exact hS

theorem runCycles_last_sl (side : Side) (cfg : RiskCfg) (lot : ℚ) (l : List CycleIn)
    (st0 : SymState) (v : ℚ) (hv : st0.last_sl = some (some v)) :
    ∃ w, (runCycles side cfg lot l st0).last_sl = some (some w) ∧
      (side = .Buy → v ≤ w) ∧ (side = .Sell → w ≤ v) := by
  induction l generalizing st0 v with
  | nil => exact ⟨v, hv, fun _ => le_refl v, fun _ => le_refl v⟩
  | cons c rest ih =>
    rw [show runCycles side cfg lot (c :: rest) st0
        = runCycles side cfg lot rest (stepState side cfg lot c st0) from rfl]
    rcases upd_last_sl_spec side cfg lot c st0 v hv with h | ⟨d, hd, hbuy, hsell⟩
    · exact ih (stepState side cfg lot c st0) v h
    · rcases ih (stepState side cfg lot c st0) (roundTo 2 d) hd with ⟨w, hw, hb, hs⟩
      refine ⟨w, hw, fun hside => ?_, fun hside => ?_⟩
      · exact le_trans (le_of_lt (hbuy hside)) (hb hside)
      · exact le_trans (hs hside) (le_of_lt (hsell hside))

/-- C5: across every sequence of lifecycle cycles for one position, the
persisted last-stop value is a monotone ratchet.  Starting from any
persisted stop `v`, after any sequence of cycles the persisted stop is some
`w` with `v ≤ w` for a long and `w ≤ v` for a short (whatever the per-cycle
prices, ATR values, bands and exchange-call outcomes); and a single cycle
changes the persisted stop only to a strictly more protective value
(`v < w` long, `w < v` short) — the guard at risk.py line 174 updates only
when the new candidate strictly tightens on the last known value. -/
theorem C5_stop_ratchet (cfg : RiskCfg) (lot : ℚ) (l : List CycleIn) (st0 : SymState) (v : ℚ)
    (hv : st0.last_sl = some (some v)) :
    (∃ w, v ≤ w ∧ (runCycles .Buy cfg lot l st0).last_sl = some (some w)) ∧
    (∃ w, w ≤ v ∧ (runCycles .Sell cfg lot l st0).last_sl = some (some w)) ∧
    (∀ c : CycleIn, (stepState .Buy cfg lot c st0).last_sl ≠ st0.last_sl →
      ∃ w, v < w ∧ (stepState .Buy cfg lot c st0).last_sl = some (some w)) ∧
    (∀ c : CycleIn, (stepState .Sell cfg lot c st0).last_sl ≠ st0.last_sl →
      ∃ w, w < v ∧ (stepState .Sell cfg lot c st0).last_sl = some (some w)) := by
  refine ⟨?_, ?_, ?_, ?_⟩
  · rcases runCycles_last_sl .Buy cfg lot l st0 v hv with ⟨w, hw, hb, _⟩
    exact ⟨w, hb rfl, hw⟩
  · rcases runCycles_last_sl .Sell cfg lot l st0 v hv with ⟨w, hw, _, hs⟩
    exact ⟨w, hs rfl, hw⟩
  · intro c hne
    rcases upd_last_sl_spec .Buy cfg lot c st0 v hv with h | ⟨d, hd, hbuy, _⟩
    · exact absurd (h.trans hv.symm) hne
    · exact ⟨roundTo 2 d, hbuy rfl, hd⟩
  · intro c hne
    rcases upd_last_sl_spec .Sell cfg lot c st0 v hv with h | ⟨d, hd, _, hsell⟩
    · exact absurd (h.trans hv.symm) hne
    · exact ⟨roundTo 2 d, hsell rfl, hd⟩

/-- C5 (witness): a long and a short starting from a persisted stop of 99,
run through one concrete cycle. -/
theorem C5_stop_ratchet_witness :
    (∃ w, (99:ℚ) ≤ w ∧ (runCycles .Buy defaultRiskCfg (1/1000)
      [⟨100, 1, 103, some 2, none, none, true, true, true⟩]
      ⟨some (some 100), some (some 99), some false, some false⟩).last_sl = some (some w)) ∧
    (∃ w, w ≤ (99:ℚ) ∧ (runCycles .Sell defaultRiskCfg (1/1000)
      [⟨100, 1, 103, some 2, none, none, true, true, true⟩]
      ⟨some (some 100), some (some 99), some false, some false⟩).last_sl = some (some w)) ∧
    (∀ c : CycleIn, (stepState .Buy defaultRiskCfg (1/1000) c
        ⟨some (some 100), some (some 99), some false, some false⟩).last_sl ≠
        (⟨some (some 100), some (some 99), some false, some false⟩ : SymState).last_sl →
      ∃ w, (99:ℚ) < w ∧ (stepState .Buy defaultRiskCfg (1/1000) c
        ⟨some (some 100), some (some 99), some false, some false⟩).last_sl = some (some w)) ∧
    (∀ c : CycleIn, (stepState .Sell defaultRiskCfg (1/1000) c
        ⟨some (some 100), some (some 99), some false, some false⟩).last_sl ≠
        (⟨some (some 100), some (some 99), some false, some false⟩ : SymState).last_sl →
      ∃ w, w < (99:ℚ) ∧ (stepState .Sell defaultRiskCfg (1/1000) c
        ⟨some (some 100), some (some 99), some false, some false⟩).last_sl = some (some w)) :=
  C5_stop_ratchet defaultRiskCfg (1/1000)
    [⟨100, 1, 103, some 2, none, none, true, true, true⟩]
    ⟨some (some 100), some (some 99), some false, some false⟩ 99 rfl

/-! ## Claims C2 and C10: the decision loop's position guard -/

/-- C2 (counterexample): in a cycle whose position query raised an
exception, `_has_open_position` answers (True, None) — "a position may be
open" — yet the maintenance guard `if has_pos and pos:` fails for lack of a
record, control falls through to the entry path, and with the entry gates
satisfied a new non-reduce-only market order is submitted.  This refutes
the claim that the entry path never executes in a cycle whose position
query indicated a position is (or may be) open. -/
theorem C2_counterexample :
    (main_loop_cycle true .raises 2 1 false true true).entrySubmitted = true ∧
    (_has_open_position .raises).1 = true ∧
    (_has_open_position .raises).2 = none := by
  refine ⟨?_, rfl, rfl⟩
  simp only [main_loop_cycle, _has_open_position]
  norm_num

/-- C2 (amended): the Flat-to-PositionOpen entry path executes only in
cycles whose position query produced no confirmed position record (so never
after a successful query reporting an open position); but a query that
raises — reported conservatively as open with no record — does not block
the entry path, because the maintenance guard requires both the flag and a
record. -/
theorem C2_amended (prev : Bool) (q : QueryOutcome) (score threshold : ℚ) (cb av qt : Bool)
    (h : (main_loop_cycle prev q score threshold cb av qt).entrySubmitted = true) :
    (_has_open_position q).2 = none := by
  cases q with
  | raises => rfl
  | retNonZero => rfl
  | ok l =>
    cases hf : l.find? entryOpen with
    | none => simp [_has_open_position, hf]
    | some p =>
      exfalso
      have hfalse : (main_loop_cycle prev (.ok l) score threshold cb av qt).entrySubmitted
          = false := by
        simp [main_loop_cycle, _has_open_position, hf]
      rw [h] at hfalse
      cases hfalse

/-- C2 (witness for the amended theorem): a cycle with an ok-and-flat query
and all entry gates open does submit an entry, and indeed its query holds
no position record. -/
theorem C2_amended_witness : (_has_open_position (.ok [])).2 = none :=
  C2_amended false (.ok []) 2 1 false true true
    (by simp only [main_loop_cycle, _has_open_position, List.find?]; norm_num)

/-- C10 (counterexample): a position query that completes without raising
but carries a non-zero retCode is mapped by `_has_open_position` to
(False, None), so with a position remembered from the previous cycle the
full-exit transition fires — even though no successful query reported "no
position".  This refutes the claim's "only by a successful query that
reports no position". -/
theorem C10_counterexample :
    (main_loop_cycle true .retNonZero 0 1 false false false).exitFired = true ∧
    okReportsNoPosition .retNonZero = false ∧
    QueryOutcome.retNonZero ≠ .raises := by
  refine ⟨?_, rfl, fun hq => QueryOutcome.noConfusion hq⟩
  simp only [main_loop_cycle, _has_open_position]
  norm_num

theorem main_loop_cycle_exitFired (prev : Bool) (q : QueryOutcome) (score threshold : ℚ)
    (cb av qt : Bool) :
    (main_loop_cycle prev q score threshold cb av qt).exitFired
      = (prev && !(_has_open_position q).1) := by
  simp only [main_loop_cycle]
  split_ifs <;> rfl

/-- C10 (amended): a raising position query is answered (True, None), and
consequently never triggers the PositionOpen-to-Flat exit transition; the
exit fires exactly when the previous cycle observed a position and the
current query either returned a non-zero retCode (also mapped to "no
position") or completed successfully reporting no positive-size entry. -/
theorem C10_amended (prev : Bool) (q : QueryOutcome) (score threshold : ℚ) (cb av qt : Bool) :
    _has_open_position .raises = (true, none) ∧
    ((main_loop_cycle prev q score threshold cb av qt).exitFired = true ↔
      (prev = true ∧ (q = .retNonZero ∨ okReportsNoPosition q = true))) := by
  refine ⟨rfl, ?_⟩
  rw [main_loop_cycle_exitFired]
  cases q with
  | raises => simp [_has_open_position, okReportsNoPosition]
  | retNonZero => simp [_has_open_position]
  | ok l =>
    cases hf : l.find? entryOpen with
    | none => simp [_has_open_position, okReportsNoPosition, hf]
    | some p => simp [_has_open_position, okReportsNoPosition, hf]

/-! ## Claim C8: the regime classifier's trend rule -/

theorem oiRising_iff (oi : List OiEntry) :
    oiRising oi = true ↔
      ∃ vals lastV, oiNormalize (oi.drop (oi.length - 10)) = .ok vals ∧
        vals.getLast? = some lastV ∧ 2 ≤ vals.length ∧
        vals.dropLast.sum / (vals.dropLast.length : ℚ) < lastV := by
  unfold oiRising
  cases hn : oiNormalize (oi.drop (oi.length - 10)) with
  | error e => simp [hn]
  | ok vals =>
    cases hl : vals.getLast? with
    | none => simp [hl]
    | some lastV => simp [hl]

theorem trend_ite_eq (c c2 : Bool) :
    ((if c = true then "trend" else if c2 = true then "mean-reversion" else "neutral")
      = "trend") ↔ c = true := by
  cases c <;> cases c2 <;> simp

/-- C8: for every non-empty feature frame, the regime classifier returns
"trend" exactly when ADX exceeds 25, the EMA stack is strictly bullish
(EMA9 > EMA21 > EMA50), and either the basis is positive or the
open-interest window is rising — rising meaning the normalization of the
last ten entries succeeded and produced at least two values whose last
exceeds the mean of the preceding ones.  An exception while normalizing
(captured by `oiNormalize` returning `.error`) cannot satisfy the
right-hand side, so it is treated as "not rising" and never propagates. -/
theorem C8_regime_trend (rows : List RegimeRow) (last : RegimeRow) (basis : Option ℚ)
    (oi : List OiEntry) (hlast : rows.getLast? = some last) :
    (detect_regime rows basis oi = "trend" ↔
      ((∃ a, last.adx = some a ∧ 25 < a) ∧
        (∃ e9 e21 e50, last.ema_9 = some e9 ∧ last.ema_21 = some e21 ∧
          last.ema_50 = some e50 ∧ e21 < e9 ∧ e50 < e21) ∧
        ((∃ b, basis = some b ∧ 0 < b) ∨
          (∃ vals lastV, oiNormalize (oi.drop (oi.length - 10)) = .ok vals ∧
            vals.getLast? = some lastV ∧ 2 ≤ vals.length ∧
            vals.dropLast.sum / (vals.dropLast.length : ℚ) < lastV)))) := by
  have hA : (match last.adx with | some a => decide (25 < a) | none => false) = true
      ↔ (∃ a, last.adx = some a ∧ 25 < a) := by
    cases h : last.adx <;> simp [h]
  have hB : (match last.ema_9, last.ema_21, last.ema_50 with
      | some e9, some e21, some e50 => decide (e21 < e9) && decide (e50 < e21)
      | _, _, _ => false) = true
      ↔ (∃ e9 e21 e50, last.ema_9 = some e9 ∧ last.ema_21 = some e21 ∧
          last.ema_50 = some e50 ∧ e21 < e9 ∧ e50 < e21) := by
    cases h9 : last.ema_9 <;> cases h21 : last.ema_21 <;> cases h50 : last.ema_50 <;>
      simp [h9, h21, h50]
  have hC : (match basis with | some b => decide (0 < b) | none => false) = true
      ↔ (∃ b, basis = some b ∧ 0 < b) := by
    cases h : basis <;> simp [h]
  simp only [detect_regime, hlast]
  rw [trend_ite_eq]
  simp only [Bool.and_eq_true, Bool.or_eq_true, hA, hB, hC, oiRising_iff]
  exact and_assoc

/-- C8 (witness): the spec's scenario — ADX forced to 30, bullish EMA
stack, basis = +0.5 — classifies as "trend". -/
theorem C8_regime_trend_witness :
    detect_regime [⟨some 30, some 3, some 2, some 1⟩] (some (1/2)) [] = "trend" :=
  (C8_regime_trend [⟨some 30, some 3, some 2, some 1⟩] ⟨some 30, some 3, some 2, some 1⟩
      (some (1/2)) [] rfl).mpr
    ⟨⟨30, rfl, by norm_num⟩, ⟨3, 2, 1, rfl, rfl, rfl, by norm_num, by norm_num⟩,
      Or.inl ⟨1/2, rfl, by norm_num⟩⟩

/-! ## Claim C7: sub-score boundedness -/

theorem pyClamp_bounds (s : ℚ) : -1 ≤ pyClamp s ∧ pyClamp s ≤ 1 := by
  unfold pyClamp
  constructor
  · exact le_max_right _ _
  · exact max_le (le_trans (min_le_right _ _) (le_refl 1)) (by norm_num)

theorem _ta_subscore_bounds (cfg : ScoringCfg) (last : LastRow) :
    -1 ≤ _ta_subscore cfg last ∧ _ta_subscore cfg last ≤ 1 := by
  unfold _ta_subscore
  exact pyClamp_bounds _

theorem _bybit_data_subscore_bounds (cfg : ScoringCfg) (m : MetricsIn) :
    -1 ≤ _bybit_data_subscore cfg m ∧ _bybit_data_subscore cfg m ≤ 1 := by
  unfold _bybit_data_subscore
  exact pyClamp_bounds _

theorem _volatility_subscore_bounds (cfg : ScoringCfg) (fr : Frame) :
    -1 ≤ _volatility_subscore cfg fr ∧ _volatility_subscore cfg fr ≤ 1 := by
  unfold _volatility_subscore
  split
  · norm_num
  · split
    · norm_num
    · split
      · norm_num
      · exact pyClamp_bounds _

theorem _volume_subscore_default_bounds (last : LastRow) :
    -(2/5) ≤ _volume_subscore _DEFAULT_CFG last ∧ _volume_subscore _DEFAULT_CFG last ≤ 3/5 := by
  unfold _volume_subscore _DEFAULT_CFG
  set vol : ℚ := last.volume.getD 0 with hvol
  set vma : ℚ := last.vol_ma_20.getD 0 with hvma
  simp only
  split_ifs with h1 h2 h3 h4
  · norm_num
  · norm_num
  · norm_num
  · set surge : ℚ := vol / max vma (1 / 1000000000) with hsurge
    have hmax : max ((15:ℚ)/10 - 1) (1 / 1000000000) = 1/2 := by
      rw [max_eq_left] <;> norm_num
    rw [hmax]
    push_neg at h2
    have key : (surge - 1) / ((1:ℚ)/2) * (6/10) = (surge - 1) * (6/5) := by ring
    rw [key]
    constructor <;> nlinarith [h2, h4]
  · set surge : ℚ := vol / max vma (1 / 1000000000) with hsurge
    have hmax : max ((1:ℚ) - 7/10) (1 / 1000000000) = 3/10 := by
      rw [max_eq_left] <;> norm_num
    rw [hmax]
    push_neg at h2 h3 h4
    have habs : |(-(4/10) : ℚ)| = 4/10 := by norm_num
    rw [habs]
    have key : -((1 - surge) / ((3:ℚ)/10) * (4/10)) = -((1 - surge) * (4/3)) := by ring
    rw [key]
    constructor <;> nlinarith [h3, h4]

theorem roundTo_one_eq (n : ℕ) : roundTo n 1 = 1 := by
  have h := roundTo_int_div n ((10:ℤ) ^ n)
  have he : (((10:ℤ) ^ n : ℤ) : ℚ) / 10 ^ n = 1 := by
    push_cast
    field_simp
  rw [he] at h
  exact h

theorem roundTo_neg_one_eq (n : ℕ) : roundTo n (-1) = -1 := by
  have h := roundTo_int_div n (-((10:ℤ) ^ n))
  have he : ((-((10:ℤ) ^ n) : ℤ) : ℚ) / 10 ^ n = -1 := by
    push_cast
    field_simp
  rw [he] at h
  exact h

theorem roundTo_mem_pm1 (n : ℕ) (x : ℚ) (h1 : -1 ≤ x) (h2 : x ≤ 1) :
    -1 ≤ roundTo n x ∧ roundTo n x ≤ 1 := by
  constructor
  · calc (-1 : ℚ) = roundTo n (-1) := (roundTo_neg_one_eq n).symm
      _ ≤ roundTo n x := roundTo_mono n h1
  · calc roundTo n x ≤ roundTo n 1 := roundTo_mono n h2
      _ = 1 := roundTo_one_eq n

/-- C7 (amended): the technical, volatility and microstructure sub-scores
are each clamped to [-1, 1] for EVERY configuration; the volume sub-score
is not clamped, but under the default configuration it stays within
[-0.4, 0.6] ⊆ [-1, 1], so with the default configuration every entry of
the returned breakdown lies in [-1, 1] and the weighted total (weights
0.45 + 0.25 + 0.15 + 0.15 = 1) lies in [-1, 1] — the sum of the absolute
weights. -/
theorem C7_amended (cfg : ScoringCfg) (fr : Frame) (m : MetricsIn) :
    (-1 ≤ _ta_subscore cfg fr.last ∧ _ta_subscore cfg fr.last ≤ 1) ∧
    (-1 ≤ _volatility_subscore cfg fr ∧ _volatility_subscore cfg fr ≤ 1) ∧
    (-1 ≤ _bybit_data_subscore cfg m ∧ _bybit_data_subscore cfg m ≤ 1) ∧
    (-1 ≤ (score_signal _DEFAULT_CFG fr m).2.TA ∧ (score_signal _DEFAULT_CFG fr m).2.TA ≤ 1) ∧
    (-1 ≤ (score_signal _DEFAULT_CFG fr m).2.BybitData ∧
      (score_signal _DEFAULT_CFG fr m).2.BybitData ≤ 1) ∧
    (-1 ≤ (score_signal _DEFAULT_CFG fr m).2.Volume ∧
      (score_signal _DEFAULT_CFG fr m).2.Volume ≤ 1) ∧
    (-1 ≤ (score_signal _DEFAULT_CFG fr m).2.Volatility ∧
      (score_signal _DEFAULT_CFG fr m).2.Volatility ≤ 1) ∧
    (-1 ≤ (score_signal _DEFAULT_CFG fr m).1 ∧ (score_signal _DEFAULT_CFG fr m).1 ≤ 1) := by
  obtain ⟨hta1, hta2⟩ := _ta_subscore_bounds _DEFAULT_CFG fr.last
  obtain ⟨hvo1, hvo2⟩ := _volatility_subscore_bounds _DEFAULT_CFG fr
  obtain ⟨hby1, hby2⟩ := _bybit_data_subscore_bounds _DEFAULT_CFG m
  obtain ⟨hvm1, hvm2⟩ := _volume_subscore_default_bounds fr.last
  have hTA : (score_signal _DEFAULT_CFG fr m).2.TA
      = roundTo 3 (_ta_subscore _DEFAULT_CFG fr.last) := rfl
  have hBy : (score_signal _DEFAULT_CFG fr m).2.BybitData
      = roundTo 3 (_bybit_data_subscore _DEFAULT_CFG m) := rfl
  have hVm : (score_signal _DEFAULT_CFG fr m).2.Volume
      = roundTo 3 (_volume_subscore _DEFAULT_CFG fr.last) := rfl
  have hVo : (score_signal _DEFAULT_CFG fr m).2.Volatility
      = roundTo 3 (_volatility_subscore _DEFAULT_CFG fr) := rfl
  have hTot : (score_signal _DEFAULT_CFG fr m).1
      = roundTo 2 (_ta_subscore _DEFAULT_CFG fr.last * (45/100)
        + _bybit_data_subscore _DEFAULT_CFG m * (25/100)
        + _volume_subscore _DEFAULT_CFG fr.last * (15/100)
        + _volatility_subscore _DEFAULT_CFG fr * (15/100)) := rfl
  refine ⟨_ta_subscore_bounds cfg fr.last, _volatility_subscore_bounds cfg fr,
    _bybit_data_subscore_bounds cfg m, ?_, ?_, ?_, ?_, ?_⟩
  · rw [hTA]
    exact roundTo_mem_pm1 3 _ hta1 hta2
  · rw [hBy]
    exact roundTo_mem_pm1 3 _ hby1 hby2
  · rw [hVm]
    exact roundTo_mem_pm1 3 _ (by linarith) (by linarith)
  · rw [hVo]
    exact roundTo_mem_pm1 3 _ hvo1 hvo2
  · rw [hTot]
    exact roundTo_mem_pm1 2 _ (by nlinarith) (by nlinarith)

theorem roundTo_two_two : roundTo 3 (2:ℚ) = 2 := by
  have h := roundTo_int_div 3 2000
  norm_num at h
  exact h

/-- C7 (counterexample): the volume sub-score is NOT clamped to [-1, 1]:
with a configured volume contribution `score_hi = 2` (all other values
default) and a last row whose volume is 1.5 times its moving average, the
returned Volume entry of the breakdown is 2, outside [-1, 1].  This
refutes the claim for arbitrary configured per-sub-score contribution
values. -/
theorem C7_counterexample :
    (score_signal { _DEFAULT_CFG with volume := ⟨15/10, 7/10, 2, -(4/10)⟩ }
        ⟨[], ⟨0, none, none, none, none, none, none, some 15, some 10⟩⟩
        ⟨.noneV, .noneV, []⟩).2.Volume = 2 ∧
    ¬ ((score_signal { _DEFAULT_CFG with volume := ⟨15/10, 7/10, 2, -(4/10)⟩ }
        ⟨[], ⟨0, none, none, none, none, none, none, some 15, some 10⟩⟩
        ⟨.noneV, .noneV, []⟩).2.Volume ≤ 1) := by
  have hv : _volume_subscore { _DEFAULT_CFG with volume := ⟨15/10, 7/10, 2, -(4/10)⟩ }
      ⟨0, none, none, none, none, none, none, some 15, some 10⟩ = 2 := by
    unfold _volume_subscore
    norm_num [max_def]
  have hproj : (score_signal { _DEFAULT_CFG with volume := ⟨15/10, 7/10, 2, -(4/10)⟩ }
      ⟨[], ⟨0, none, none, none, none, none, none, some 15, some 10⟩⟩
      ⟨.noneV, .noneV, []⟩).2.Volume
      = roundTo 3 (_volume_subscore { _DEFAULT_CFG with volume := ⟨15/10, 7/10, 2, -(4/10)⟩ }
        ⟨0, none, none, none, none, none, none, some 15, some 10⟩) := rfl
  have h2 : (score_signal { _DEFAULT_CFG with volume := ⟨15/10, 7/10, 2, -(4/10)⟩ }
      ⟨[], ⟨0, none, none, none, none, none, none, some 15, some 10⟩⟩
      ⟨.noneV, .noneV, []⟩).2.Volume = 2 := by
    rw [hproj, hv, roundTo_two_two]
  exact ⟨h2, by rw [h2]; norm_num⟩
